import Mathlib

/-!
A shallow embedding in Lean 4 of the two modules of `repoze.what` under
verification: `repoze/what/authorize.py` (the decision engine) and
`repoze/what/adapters/benchmark.py` (the adapter benchmark utilities),
together with theorems settling the behavioural claims about them.

Conventions of the embedding:
* Python dictionaries become association lists (`List (key × value)`).
* A Python value that may be `None` becomes an `Option`.
* An operation that may raise becomes an `Except`.
* The wall clock consulted by the benchmark is an arbitrary function
  `clock : ℕ → ℚ` giving the reading returned by the n-th call to `timer()`;
  a monotone `clock` models the monotonic-clock assumption.
-/

namespace RepozeWhat

/-! ## Definitions for `repoze/what/authorize.py` -/

/-- The credentials dictionary stored under the key
`repoze.what.credentials` of the WSGI environment, as an association list. -/
abbrev Credentials := List (String × String)

/-- The reason string carried by a `PredicateError` raised by
`Predicate.evaluate`. -/
abbrev PredicateError := String

/-- The slice of the WSGI `environ` dictionary read by
`check_authorization`: the value under `repoze.what.credentials`
(`none` when the key is absent, mirroring `environ.get`) and whether a
logger is present under `repoze.who.logger`. -/
structure Environ where
  credentials : Option Credentials
  logger : Bool
  deriving Repr, DecidableEq

/-- A `repoze.what` predicate: its `evaluate(environ, credentials)` method,
which either returns (the result is discarded by the caller) or raises a
`PredicateError` carrying a reason. -/
structure Predicate where
  evaluate : Environ → Option Credentials → Except PredicateError Unit

/-- The outcome of `check_authorization`. -/
inductive AuthResult where
  /-- The call returned normally. -/
  | granted : AuthResult
  /-- The call raised `NotAuthorizedError(reason)`. -/
  | notAuthorized (reason : PredicateError) : AuthResult
  deriving Repr, DecidableEq

/-- Everything observable about one call to `check_authorization`:
the control-flow outcome, the lines sent to the logger (in order), and the
credentials argument of each invocation of `predicate.evaluate` (in order). -/
structure AuthOutcome where
  result : AuthResult
  logLines : List String
  evaluateCalls : List (Option Credentials)
  deriving Repr, DecidableEq

/-- `check_authorization(predicate, environ)` from
`repoze/what/authorize.py`:

```
logger = environ.get('repoze.who.logger')
credentials = environ.get('repoze.what.credentials')
try:
    predicate and predicate.evaluate(environ, credentials)
except PredicateError, error:
    logger and logger.info(u'Authorization denied: %s' % error)
    raise NotAuthorizedError(error)
logger and logger.info('Authorization granted')
```

`predicate and ...` short-circuits: a `None` predicate is never evaluated. -/
def check_authorization (predicate : Option Predicate) (environ : Environ) :
    AuthOutcome :=
  let credentials := environ.credentials
  let evalOutcome : Except PredicateError Unit × List (Option Credentials) :=
    match predicate with
    | none => (Except.ok (), [])
    | some p => (p.evaluate environ credentials, [credentials])
  match evalOutcome with
  | (Except.error e, calls) =>
      { result := AuthResult.notAuthorized e
        logLines := if environ.logger then ["Authorization denied: " ++ e] else []
        evaluateCalls := calls }
  | (Except.ok _, calls) =>
      { result := AuthResult.granted
        logLines := if environ.logger then ["Authorization granted"] else []
        evaluateCalls := calls }

/-- A predicate that always denies with reason `"not logged in"`; used to
exercise the engine on concrete inputs. -/
def denyPredicate : Predicate :=
  ⟨fun _ _ => Except.error "not logged in"⟩

/-- A predicate that always grants; used to exercise the engine on concrete
inputs. -/
def grantPredicate : Predicate :=
  ⟨fun _ _ => Except.ok ()⟩

/-- A concrete environment with no credentials key and no logger. -/
def envNoCreds : Environ := { credentials := none, logger := false }

/-! ## Definitions for `repoze/what/adapters/benchmark.py`

The benchmark drives an arbitrary `repoze.what` source adapter through the
base-adapter API (`get_all_sections`, `delete_section`, `create_section`,
`set_section_items`) and through the cache attributes `loaded_sections` and
`all_sections_loaded`. -/

/-- A seed mapping (`source` in the code): section name to items, as an
association list in the iteration order of the dictionary. -/
abbrev SourceMap := List (String × List String)

/-- Modelled from the spec: the state of a source adapter, whose base-class
code is not in the repository. The backing store maps section names to item
collections; `loaded_sections` and `all_sections_loaded` are the cache
attributes of the base adapter, assigned directly by the benchmark. -/
structure Adapter where
  sections : SourceMap
  loaded_sections : SourceMap
  all_sections_loaded : Bool
  deriving Repr, DecidableEq

/-- Modelled from the spec: `adapter.get_all_sections()` returns the whole
backing store (the benchmark only uses its keys). -/
def get_all_sections (a : Adapter) : SourceMap :=
  a.sections

/-- Modelled from the spec: `adapter.delete_section(name)` removes the
section `name` from the backing store. -/
def delete_section (name : String) (a : Adapter) : Adapter :=
  { a with sections := a.sections.filter (fun p => p.1 ≠ name) }

/-- Modelled from the spec: `adapter.create_section(name)` adds an empty
section `name` to the backing store. -/
def create_section (name : String) (a : Adapter) : Adapter :=
  { a with sections := a.sections ++ [(name, [])] }

/-- Modelled from the spec: `adapter.set_section_items(name, items)` replaces
the contents of section `name` with `items`. -/
def set_section_items (name : String) (items : List String) (a : Adapter) :
    Adapter :=
  { a with
      sections := a.sections.map (fun p => if p.1 = name then (name, items) else p) }

/-- `AdapterBenchmark.reset_source(source)`:

```
if source:
    sections = self.adapter.get_all_sections().keys()
    for section in sections:
        self.adapter.delete_section(section)
    for (new_section, items) in source.items():
        self.adapter.create_section(new_section)
        self.adapter.set_section_items(new_section, items)
self.adapter.loaded_sections = {}
self.adapter.all_sections_loaded = False
```

`if source:` is Python truthiness: both `None` and an empty dictionary skip
the backing-store reset. The key list is snapshotted before deletion, as
`.keys()` does. -/
def reset_source (a : Adapter) (source : Option SourceMap) : Adapter :=
  let a1 : Adapter :=
    match source with
    | none => a
    | some s =>
        if s.isEmpty then a
        else
          let keys := (get_all_sections a).map Prod.fst
          let emptied := keys.foldl (fun st name => delete_section name st) a
          s.foldl
            (fun st p => set_section_items p.1 p.2 (create_section p.1 st))
            emptied
  { a1 with loaded_sections := [], all_sections_loaded := false }

/-- Everything observable about one call to `AdapterBenchmark.run`: the final
adapter state, the accumulated elapsed time, and how many times the action
and `reset_source` were invoked. -/
structure RunResult where
  adapter : Adapter
  elapsed : ℚ
  actionCalls : ℕ
  resetCalls : ℕ
  deriving Repr, DecidableEq

/-- The loop of `AdapterBenchmark.run`, starting at clock index `i` (the
n-th call to `timer()` returns `clock n`) with this many iterations left:

```
for iteration in range(iterations):
    self.reset_source(source)
    start_time = timer()
    action(self.adapter)
    end_time = timer()
    elapsed_time += end_time - start_time
```
-/
def runFrom (action : Adapter → Adapter) (clock : ℕ → ℚ)
    (source : Option SourceMap) : ℕ → ℕ → Adapter → RunResult
  | _, 0, a => { adapter := a, elapsed := 0, actionCalls := 0, resetCalls := 0 }
  | i, n + 1, a =>
      let a1 := reset_source a source
      let a2 := action a1
      let rest := runFrom action clock source (i + 2) n a2
      { adapter := rest.adapter
        elapsed := (clock (i + 1) - clock i) + rest.elapsed
        actionCalls := rest.actionCalls + 1
        resetCalls := rest.resetCalls + 1 }

/-- `AdapterBenchmark.run(action, iterations, source)`: run the loop for
`iterations` iterations starting from the first clock reading, and return
the accumulated state (`elapsed_time` starts at `0`). -/
def run (action : Adapter → Adapter) (clock : ℕ → ℚ) (iterations : ℕ)
    (source : Option SourceMap) (a : Adapter) : RunResult :=
  runFrom action clock source 0 iterations a

/-- The inner loop of `compare_benchmarks` for one action: run the action on
every named benchmark in order, collecting `(name, elapsed)` results and
threading each updated benchmark adapter (the same benchmark objects are
reused for later actions). -/
def runBenchRow (action : Adapter → Adapter) (clock : ℕ → ℚ) (iterations : ℕ)
    (source : Option SourceMap) :
    List (String × Adapter) → List (String × ℚ) × List (String × Adapter)
  | [] => ([], [])
  | b :: rest =>
      let r := run action clock iterations source b.2
      let pr := runBenchRow action clock iterations source rest
      ((b.1, r.elapsed) :: pr.1, (b.1, r.adapter) :: pr.2)

/-- The outer loop of `compare_benchmarks`: one result row per action, in
order, threading the benchmark adapters from row to row. -/
def compareAux (clock : ℕ → ℚ) (iterations : ℕ) (source : Option SourceMap) :
    List (Adapter → Adapter) → List (String × Adapter) → List (List (String × ℚ))
  | [], _ => []
  | action :: acts, benchs =>
      let pr := runBenchRow action clock iterations source benchs
      pr.1 :: compareAux clock iterations source acts pr.2

/-- `compare_benchmarks(iterations, source, *actions, **benchmarks)`:

```
assert len(actions) > 0, "At least one action must be run"
assert len(benchmarks) > 1, "At least one benchmark must be specified"
results = []
for action in actions:
    action_results = {}
    for (benchmark_name, benchmark) in benchmarks.items():
        time_slapsed = benchmark.run(action, iterations, source)
        action_results[benchmark_name] = time_slapsed
    results.append(action_results)
return results
```

Both assertions are checked before any benchmark is run; a failed assertion
is the `Except.error` case, carrying the assertion message. -/
def compare_benchmarks (iterations : ℕ) (source : Option SourceMap)
    (actions : List (Adapter → Adapter)) (benchmarks : List (String × Adapter))
    (clock : ℕ → ℚ) : Except String (List (List (String × ℚ))) :=
  if actions.length = 0 then Except.error "At least one action must be run"
  else if benchmarks.length ≤ 1 then
    Except.error "At least one benchmark must be specified"
  else Except.ok (compareAux clock iterations source actions benchmarks)

/-- A concrete adapter with a populated backing store and a warm cache; used
to exercise the benchmark on concrete inputs. -/
def adapterA : Adapter :=
  { sections := [("admins", ["rms"])]
    loaded_sections := [("admins", ["rms"])]
    all_sections_loaded := true }

/-- A concrete adapter with an empty backing store and a cold cache. -/
def emptyAdapter : Adapter :=
  { sections := [], loaded_sections := [], all_sections_loaded := false }

/-- A concrete monotone clock: the n-th `timer()` call returns `n` seconds. -/
def natClock : ℕ → ℚ := fun k => k

/-! ## Helper lemmas -/

/-- Deleting every key of a snapshot that covers the whole store empties the
store. -/
lemma sections_foldl_delete (l : List String) :
    ∀ st : Adapter, (∀ p ∈ st.sections, p.1 ∈ l) →
      (l.foldl (fun acc name => delete_section name acc) st).sections = [] := by
  induction l with
  | nil =>
      intro st h
      simp only [List.foldl_nil]
      rcases hs : st.sections with _ | ⟨p, rest⟩
      · rfl
      · exact absurd (h p (by simp [hs])) (List.not_mem_nil p.1)
  | cons n ns ih =>
      intro st h
      simp only [List.foldl_cons]
      apply ih
      intro p hp
      have hmem : p ∈ st.sections ∧ p.1 ≠ n := by
        simpa [delete_section] using hp
      have := h p hmem.1
      rw [List.mem_cons] at this
      exact this.resolve_left hmem.2

/-- Creating and populating sections whose names are fresh and pairwise
distinct appends exactly the seed to the store. -/
lemma sections_foldl_populate (s : SourceMap) :
    (s.map Prod.fst).Nodup →
    ∀ st : Adapter, (∀ p ∈ st.sections, p.1 ∉ s.map Prod.fst) →
      (s.foldl (fun acc q => set_section_items q.1 q.2 (create_section q.1 acc))
        st).sections = st.sections ++ s := by
  induction s with
  | nil => intro _ st _; simp
  | cons hd rest ih =>
      intro hnd st hdisj
      obtain ⟨n, items⟩ := hd
      simp only [List.foldl_cons]
      have hfresh : ∀ p ∈ st.sections, p.1 ≠ n := by
        intro p hp
        have := hdisj p hp
        simp only [List.map_cons, List.mem_cons, not_or] at this
        exact this.1
      have hstep :
          (set_section_items n items (create_section n st)).sections
            = st.sections ++ [(n, items)] := by
        simp only [set_section_items, create_section, List.map_append]
        have hmap :
            st.sections.map (fun p => if p.1 = n then (n, items) else p)
              = st.sections := by
          have h1 :
              st.sections.map (fun p => if p.1 = n then (n, items) else p)
                = st.sections.map id :=
            List.map_congr_left (fun p hp => by simp [hfresh p hp])
          simpa using h1
        rw [hmap]
        simp
      have hnd' : (rest.map Prod.fst).Nodup := by
        simp only [List.map_cons, List.nodup_cons] at hnd
        exact hnd.2
      have hnmem : n ∉ rest.map Prod.fst := by
        simp only [List.map_cons, List.nodup_cons] at hnd
        exact hnd.1
      have hdisj' :
          ∀ p ∈ (set_section_items n items (create_section n st)).sections,
            p.1 ∉ rest.map Prod.fst := by
        intro p hp
        rw [hstep] at hp
        rcases List.mem_append.mp hp with h1 | h2
        · have := hdisj p h1
          simp only [List.map_cons, List.mem_cons, not_or] at this
          exact this.2
        · have hpn : p = (n, items) := by simpa using h2
          rw [hpn]
          exact hnmem
      have := ih hnd' (set_section_items n items (create_section n st)) hdisj'
      rw [this, hstep, List.append_assoc]
      rfl

/-- Closed form of the elapsed time accumulated by the `run` loop: the sum
of the differences between consecutive clock readings, independent of the
action, the seed and the adapter state. -/
lemma runFrom_elapsed_sum (action : Adapter → Adapter) (clock : ℕ → ℚ)
    (source : Option SourceMap) :
    ∀ (n i : ℕ) (a : Adapter),
      (runFrom action clock source i n a).elapsed =
        (Finset.range n).sum (fun k => clock (i + 2 * k + 1) - clock (i + 2 * k)) := by
  intro n
  induction n with
  | zero => intro i a; simp [runFrom]
  | succ n ih =>
      intro i a
      simp only [runFrom]
      rw [ih (i + 2)]
      have h2 :
          (Finset.range n).sum
              (fun k => clock (i + 2 + 2 * k + 1) - clock (i + 2 + 2 * k))
            = (Finset.range n).sum
              (fun k => clock (i + 2 * (k + 1) + 1) - clock (i + 2 * (k + 1))) := by
        apply Finset.sum_congr rfl
        intro k _
        have harg : i + 2 + 2 * k = i + 2 * (k + 1) := by ring
        rw [harg]
      rw [h2, Finset.sum_range_succ']
      simp only [Nat.mul_zero, Nat.add_zero]
      ring

/-- The elapsed time reported by `run` does not depend on the action, the
seed or the initial adapter state: it is a pure function of the clock and
the iteration count. -/
lemma run_elapsed_fixed (action action' : Adapter → Adapter) (clock : ℕ → ℚ)
    (iterations : ℕ) (source source' : Option SourceMap) (x y : Adapter) :
    (run action clock iterations source x).elapsed =
      (run action' clock iterations source' y).elapsed := by
  rw [run, run, runFrom_elapsed_sum, runFrom_elapsed_sum]

/-- The result row built by the inner `compare_benchmarks` loop pairs each
benchmark name with the elapsed time of running the action on that
benchmark. -/
lemma runBenchRow_fst (action : Adapter → Adapter) (clock : ℕ → ℚ)
    (iterations : ℕ) (source : Option SourceMap) :
    ∀ state : List (String × Adapter),
      (runBenchRow action clock iterations source state).1 =
        state.map (fun b => (b.1, (run action clock iterations source b.2).elapsed)) := by
  intro state
  induction state with
  | nil => rfl
  | cons b rest ih => simp [runBenchRow, ih]

/-- The inner `compare_benchmarks` loop preserves the benchmark names. -/
lemma runBenchRow_snd_fst (action : Adapter → Adapter) (clock : ℕ → ℚ)
    (iterations : ℕ) (source : Option SourceMap) :
    ∀ state : List (String × Adapter),
      ((runBenchRow action clock iterations source state).2).map Prod.fst =
        state.map Prod.fst := by
  intro state
  induction state with
  | nil => rfl
  | cons b rest ih => simp [runBenchRow, ih]

/-- Two benchmark lists with the same names yield the same result row,
because the reported elapsed time does not depend on the adapter state. -/
lemma row_eq_of_fst_eq (action : Adapter → Adapter) (clock : ℕ → ℚ)
    (iterations : ℕ) (source : Option SourceMap)
    (l m : List (String × Adapter)) (h : l.map Prod.fst = m.map Prod.fst) :
    l.map (fun b => (b.1, (run action clock iterations source b.2).elapsed)) =
      m.map (fun b => (b.1, (run action clock iterations source b.2).elapsed)) := by
  have key : ∀ t : List (String × Adapter),
      t.map (fun b => (b.1, (run action clock iterations source b.2).elapsed)) =
        (t.map Prod.fst).map
          (fun nm => (nm, (run action clock iterations source emptyAdapter).elapsed)) := by
    intro t
    induction t with
    | nil => rfl
    | cons b rest ih =>
        simp only [List.map_cons]
        rw [ih, run_elapsed_fixed action action clock iterations source source
          b.2 emptyAdapter]
  rw [key l, key m, h]

/-- Characterisation of the outer `compare_benchmarks` loop: one row per
action in order, each pairing every benchmark name with the elapsed time of
running that action on that benchmark. -/
lemma compareAux_spec (clock : ℕ → ℚ) (iterations : ℕ)
    (source : Option SourceMap) (actions : List (Adapter → Adapter)) :
    ∀ state benchs : List (String × Adapter),
      state.map Prod.fst = benchs.map Prod.fst →
      compareAux clock iterations source actions state =
        actions.map (fun action => benchs.map (fun b =>
          (b.1, (run action clock iterations source b.2).elapsed))) := by
  induction actions with
  | nil => intro state benchs _; rfl
  | cons action acts ih =>
      intro state benchs h
      simp only [compareAux, List.map_cons, List.cons.injEq]
      constructor
      · rw [runBenchRow_fst]
        exact row_eq_of_fst_eq action clock iterations source state benchs h
      · apply ih
        rw [runBenchRow_snd_fst]
        exact h

/-! ## Claim theorems -/

/-- Claim C1: if the evaluation of the predicate fails with reason `r`, then
`check_authorization` raises `NotAuthorizedError` wrapping exactly `r`; if
the evaluation succeeds, the call returns `granted` and `NotAuthorizedError`
is never raised. -/
theorem check_authorization_not_authorized_iff (p : Predicate) (environ : Environ) :
    (∀ r : PredicateError,
        p.evaluate environ environ.credentials = Except.error r →
        (check_authorization (some p) environ).result = AuthResult.notAuthorized r) ∧
    (p.evaluate environ environ.credentials = Except.ok () →
        (check_authorization (some p) environ).result = AuthResult.granted) := by
  constructor
  · intro r h
    simp [check_authorization, h]
  · intro h
    simp [check_authorization, h]

/-- Witness for claim C1 at concrete inputs: the always-denying predicate
yields the wrapped reason, the always-granting one yields `granted`. -/
theorem check_authorization_not_authorized_iff_witness :
    (check_authorization (some denyPredicate) envNoCreds).result =
      AuthResult.notAuthorized "not logged in" ∧
    (check_authorization (some grantPredicate) envNoCreds).result =
      AuthResult.granted :=
  ⟨(check_authorization_not_authorized_iff denyPredicate envNoCreds).1
      "not logged in" rfl,
   (check_authorization_not_authorized_iff grantPredicate envNoCreds).2 rfl⟩

/-- Claim C2: with an absent (`None`) predicate, `check_authorization`
grants, invokes no predicate evaluation, and still logs the granted line
whenever a logger is present. -/
theorem check_authorization_none_granted (environ : Environ) :
    check_authorization none environ =
      { result := AuthResult.granted
        logLines := if environ.logger then ["Authorization granted"] else []
        evaluateCalls := [] } := by
  simp [check_authorization]

/-- Claim C3 counterexample: with the credentials key absent, the code
passes the `None` it got from `environ.get('repoze.what.credentials')`
straight to `predicate.evaluate`; the argument is `none`, which is not the
empty credentials mapping `some []` the claim describes. -/
theorem check_authorization_empty_credentials_counterexample :
    (check_authorization (some grantPredicate) envNoCreds).evaluateCalls =
      [none] ∧
    (none : Option Credentials) ≠ some ([] : Credentials) := by
  constructor
  · rfl
  · simp

/-- Claim C3 amended: when the context lacks the credentials key, the
engine invokes the evaluation of the predicate exactly once with the
absent-credentials value `None` (rather than with an empty credentials
mapping), and the engine itself does not fail because of the missing key:
its outcome is entirely the one dictated by the verdict of the predicate. -/
theorem check_authorization_missing_credentials (p : Predicate)
    (environ : Environ) (h : environ.credentials = none) :
    (check_authorization (some p) environ).evaluateCalls = [none] ∧
    (check_authorization (some p) environ).result =
      (match p.evaluate environ none with
       | Except.ok _ => AuthResult.granted
       | Except.error r => AuthResult.notAuthorized r) := by
  constructor
  · simp only [check_authorization, h]
    cases p.evaluate environ none <;> rfl
  · simp only [check_authorization, h]
    cases p.evaluate environ none <;> rfl

/-- Witness for claim C3 at concrete inputs: the always-denying predicate,
run in an environment with no credentials key, is called once with `none`
and its denial reason decides the outcome. -/
theorem check_authorization_missing_credentials_witness :
    (check_authorization (some denyPredicate) envNoCreds).evaluateCalls =
      [none] ∧
    (check_authorization (some denyPredicate) envNoCreds).result =
      (match denyPredicate.evaluate envNoCreds none with
       | Except.ok _ => AuthResult.granted
       | Except.error r => AuthResult.notAuthorized r) :=
  check_authorization_missing_credentials denyPredicate envNoCreds rfl

/-- Claim C4 counterexample: a supplied but empty seed mapping does not
reset the backing store — `if source:` is false for an empty dictionary —
so the pre-existing section survives, although the claim requires every
existing section to be deleted for every supplied seed. -/
theorem reset_source_empty_seed_counterexample :
    (reset_source adapterA (some [])).sections = [("admins", ["rms"])] ∧
    ([("admins", ["rms"])] : SourceMap) ≠ [] := by
  constructor
  · rfl
  · simp

/-- Claim C4 amended: for every supplied non-empty seed mapping (with the
distinct keys a dictionary guarantees), `reset_source` deletes every
existing section of the backing store and then creates and populates
exactly the seed sections in iteration order, so the store becomes the
seed; when the seed is omitted (`None`) — and likewise when it is an empty
mapping, since Python truthiness treats both alike — the backing store is
left untouched; and every iteration of the `run` loop begins by invoking
`reset_source` with the seed before timing the action. -/
theorem reset_source_seed_spec (a : Adapter) (s : SourceMap) (hne : s ≠ [])
    (hnd : (s.map Prod.fst).Nodup) :
    (reset_source a (some s)).sections = s ∧
    (∀ b : Adapter, (reset_source b none).sections = b.sections) ∧
    (∀ (action : Adapter → Adapter) (clock : ℕ → ℚ) (source : Option SourceMap)
        (i n : ℕ) (b : Adapter),
        runFrom action clock source i (n + 1) b =
          { adapter := (runFrom action clock source (i + 2) n
                (action (reset_source b source))).adapter
            elapsed := (clock (i + 1) - clock i) +
              (runFrom action clock source (i + 2) n
                (action (reset_source b source))).elapsed
            actionCalls := (runFrom action clock source (i + 2) n
                (action (reset_source b source))).actionCalls + 1
            resetCalls := (runFrom action clock source (i + 2) n
                (action (reset_source b source))).resetCalls + 1 }) := by
  refine ⟨?_, fun b => rfl, fun action clock source i n b => rfl⟩
  have hempty : s.isEmpty = false := by
    cases s with
    | nil => exact absurd rfl hne
    | cons hd tl => rfl
  simp only [reset_source, get_all_sections, hempty, Bool.false_eq_true,
    if_false]
  have hdel :
      ((a.sections.map Prod.fst).foldl
          (fun st name => delete_section name st) a).sections = [] :=
    sections_foldl_delete (a.sections.map Prod.fst) a
      (fun p hp => List.mem_map.mpr ⟨p, hp, rfl⟩)
  have hpop :=
    sections_foldl_populate s hnd
      ((a.sections.map Prod.fst).foldl (fun st name => delete_section name st) a)
      (fun p hp => by rw [hdel] at hp; exact absurd hp (List.not_mem_nil p))
  rw [hpop, hdel]
  rfl

/-- Witness for claim C4 at concrete inputs: resetting the populated
adapter with a two-section seed replaces the backing store by that seed. -/
theorem reset_source_seed_spec_witness :
    (reset_source adapterA (some [("g1", ["u1", "u2"]), ("g2", [])])).sections
      = [("g1", ["u1", "u2"]), ("g2", [])] :=
  (reset_source_seed_spec adapterA [("g1", ["u1", "u2"]), ("g2", [])]
    (by decide) (by decide)).1

/-- Claim C5: every call to `reset_source` leaves the cache reset — the
loaded-sections mapping empty and the all-loaded flag false — for a
supplied and for an omitted seed alike. -/
theorem reset_source_clears_cache (a : Adapter) (source : Option SourceMap) :
    (reset_source a source).loaded_sections = [] ∧
    (reset_source a source).all_sections_loaded = false :=
  ⟨rfl, rfl⟩

/-- Claim C6: with zero iterations, `run` reports `0.0` elapsed seconds and
invokes the action zero times. -/
theorem run_zero_iterations (action : Adapter → Adapter) (clock : ℕ → ℚ)
    (source : Option SourceMap) (a : Adapter) :
    (run action clock 0 source a).elapsed = 0 ∧
    (run action clock 0 source a).actionCalls = 0 :=
  ⟨rfl, rfl⟩

/-- Claim C7: under a monotone clock, the elapsed time reported by `run` is
monotone in the iteration count and never negative. -/
theorem run_monotone_nonneg (action : Adapter → Adapter) (clock : ℕ → ℚ)
    (source : Option SourceMap) (a : Adapter) (n : ℕ) (hm : Monotone clock) :
    (run action clock n source a).elapsed ≤
      (run action clock (n + 1) source a).elapsed ∧
    0 ≤ (run action clock n source a).elapsed := by
  constructor
  · rw [run, run, runFrom_elapsed_sum, runFrom_elapsed_sum,
      Finset.sum_range_succ]
    have hstep : 0 ≤ clock (0 + 2 * n + 1) - clock (0 + 2 * n) :=
      sub_nonneg.mpr (hm (Nat.le_succ _))
    linarith
  · rw [run, runFrom_elapsed_sum]
    apply Finset.sum_nonneg
    intro k _
    exact sub_nonneg.mpr (hm (Nat.le_succ _))

/-- Witness for claim C7 at concrete inputs: with the identity action, no
seed and the clock reading `n` at the n-th call, one iteration takes no
more time than two, and its elapsed time is non-negative. -/
theorem run_monotone_nonneg_witness :
    (run id natClock 1 none adapterA).elapsed ≤
      (run id natClock 2 none adapterA).elapsed ∧
    0 ≤ (run id natClock 1 none adapterA).elapsed :=
  run_monotone_nonneg id natClock none adapterA 1
    (by intro i j hij; simpa [natClock] using Nat.cast_le.mpr hij)

/-- Claim C8: with zero actions, or with fewer than two named benchmarks,
`compare_benchmarks` fails with the corresponding assertion message before
any benchmark is run (the guards precede the loops, and the error is
independent of the clock and the adapters). -/
theorem compare_benchmarks_requires_inputs (iterations : ℕ)
    (source : Option SourceMap) (actions : List (Adapter → Adapter))
    (benchmarks : List (String × Adapter)) (clock : ℕ → ℚ)
    (h : actions = [] ∨ benchmarks.length ≤ 1) :
    compare_benchmarks iterations source actions benchmarks clock =
      Except.error (if actions.length = 0 then "At least one action must be run"
                    else "At least one benchmark must be specified") := by
  by_cases ha : actions.length = 0
  · simp [compare_benchmarks, ha]
  · have hb : benchmarks.length ≤ 1 := by
      rcases h with h1 | h2
      · exact absurd (by simp [h1]) ha
      · exact h2
    simp [compare_benchmarks, ha, hb]

/-- Witness for claim C8 at concrete inputs: an empty action list is
rejected with the first assertion message even though two benchmarks are
supplied. -/
theorem compare_benchmarks_requires_inputs_witness :
    compare_benchmarks 3 none [] [("x", adapterA), ("y", adapterA)] natClock =
      Except.error
        (if ([] : List (Adapter → Adapter)).length = 0
         then "At least one action must be run"
         else "At least one benchmark must be specified") :=
  compare_benchmarks_requires_inputs 3 none [] [("x", adapterA), ("y", adapterA)]
    natClock (Or.inl rfl)

/-- Claim C9: on valid input — at least one action and at least two named
benchmarks — `compare_benchmarks` returns one result map per action in
input order, whose keys are exactly the benchmark names in their iteration
order and whose value at each name is the elapsed time of running that
action on that benchmark with the same iterations and the same seed. -/
theorem compare_benchmarks_results_shape (iterations : ℕ)
    (source : Option SourceMap) (actions : List (Adapter → Adapter))
    (benchmarks : List (String × Adapter)) (clock : ℕ → ℚ)
    (ha : actions ≠ []) (hb : 2 ≤ benchmarks.length) :
    compare_benchmarks iterations source actions benchmarks clock =
      Except.ok (actions.map (fun action =>
        benchmarks.map (fun b =>
          (b.1, (run action clock iterations source b.2).elapsed)))) := by
  have ha' : ¬ actions.length = 0 := by
    intro h0
    exact ha (List.length_eq_zero.mp h0)
  have hb' : ¬ benchmarks.length ≤ 1 := by omega
  simp only [compare_benchmarks, if_neg ha', if_neg hb']
  exact congrArg Except.ok
    (compareAux_spec clock iterations source actions benchmarks benchmarks rfl)

/-- Witness for claim C9 at concrete inputs: one action and two benchmarks
produce exactly one row keyed by both benchmark names with the run times. -/
theorem compare_benchmarks_results_shape_witness :
    compare_benchmarks 1 none [id] [("x", adapterA), ("y", emptyAdapter)]
        natClock =
      Except.ok ([id].map (fun action =>
        [("x", adapterA), ("y", emptyAdapter)].map (fun b =>
          (b.1, (run action natClock 1 none b.2).elapsed)))) :=
  compare_benchmarks_results_shape 1 none [id]
    [("x", adapterA), ("y", emptyAdapter)] natClock
    (List.cons_ne_nil id []) (by simp)

/-- Claim C10: a zero-iteration `run` leaves the adapter entirely
unchanged — the whole adapter record, hence the backing store and both
cache fields, is returned as given — and `reset_source` is never invoked. -/
theorem run_zero_frame (action : Adapter → Adapter) (clock : ℕ → ℚ)
    (source : Option SourceMap) (a : Adapter) :
    (run action clock 0 source a).adapter = a ∧
    (run action clock 0 source a).resetCalls = 0 :=
  ⟨rfl, rfl⟩

end RepozeWhat
